import Mathlib

/-!
Verification of the qthttptest repository (Go test-support harness).

The first half of this file embeds the codec equality checker of
src/codec.go (type codecEqualChecker and its Check method).  Go byte
slices produced and consumed by the codec functions are modelled as
Lean strings (Go strings are byte sequences; the conversions
[]byte(s) and string(b) are identities in this model).  The marshal
and unmarshal functions themselves (json/yaml/bson libraries) are
external collaborators and appear as parameters of the checker, just
as they are fields of the Go struct.

The second half models the request/response harness (http.go) whose
implementation is not part of the sources; only its tests are.  Those
definitions are modelled from the specification and are marked as
such in their doc comments.
-/

/-- Character-level lowercasing of ASCII letters, used for the
case-insensitive header-name comparison. -/
def lowerChar (c : Char) : Char :=
  if 'A' ≤ c ∧ c ≤ 'Z' then Char.ofNat (c.toNat + 32) else c

/-- Lowercases every character of a string. -/
def lowerStr (s : String) : String := String.mk (s.data.map lowerChar)

/-- Characters that Go's %q verb prints verbatim: printable ASCII other
than the double quote and the backslash. -/
def plainChar (c : Char) : Bool :=
  32 ≤ c.toNat && c.toNat < 127 && c ≠ '"' && c ≠ '\\'

/-- Escaping of a single character as done by Go's %q verb (modelled:
plain characters are kept, the usual escape sequences are produced for
the rest; the exact escape chosen for exotic characters is irrelevant
to the properties proved below). -/
def goEscapeChar (c : Char) : String :=
  if plainChar c then String.singleton c
  else if c = '"' then "\\\""
  else if c = '\\' then "\\\\"
  else if c = '\n' then "\\n"
  else if c = '\t' then "\\t"
  else if c = '\r' then "\\r"
  else "\\u" ++ toString c.toNat

/-- Escaping of a whole string as done by Go's %q verb (without the
surrounding quotes). -/
def goEscape (s : String) : String :=
  s.data.foldr (fun c acc => goEscapeChar c ++ acc) ""

/-- Rendering of a string by Go's %q verb: escaped content surrounded
by double quotes. -/
def goQuote (s : String) : String := "\"" ++ goEscape s ++ "\""

/-- Canonical dynamic representation of decoded structured data, the
interface-typed value that Go's unmarshal functions fill in:
scalars, sequences and string-keyed maps. -/
inductive Dyn where
  | null
  | bool (b : Bool)
  | num (n : Int)
  | str (s : String)
  | arr (xs : List Dyn)
  | map (kvs : List (String × Dyn))

mutual

/-- Structural equality test on dynamic values. -/
def dynBeq : Dyn → Dyn → Bool
  | .null, .null => true
  | .bool a, .bool b => a == b
  | .num a, .num b => a == b
  | .str a, .str b => a == b
  | .arr a, .arr b => dynListBeq a b
  | .map a, .map b => dynPairsBeq a b
  | _, _ => false

/-- Structural equality test on lists of dynamic values. -/
def dynListBeq : List Dyn → List Dyn → Bool
  | [], [] => true
  | a :: as, b :: bs => dynBeq a b && dynListBeq as bs
  | _, _ => false

/-- Structural equality test on key-value pair lists. -/
def dynPairsBeq : List (String × Dyn) → List (String × Dyn) → Bool
  | [], [] => true
  | (k1, v1) :: as, (k2, v2) :: bs => k1 == k2 && dynBeq v1 v2 && dynPairsBeq as bs
  | _, _ => false

end

mutual

theorem dynBeq_iff : ∀ a b : Dyn, dynBeq a b = true ↔ a = b
  | .null, .null => by simp [dynBeq]
  | .bool a, .bool b => by simp [dynBeq]
  | .num a, .num b => by simp [dynBeq]
  | .str a, .str b => by simp [dynBeq]
  | .arr a, .arr b => by simp [dynBeq, dynListBeq_iff a b]
  | .map a, .map b => by simp [dynBeq, dynPairsBeq_iff a b]
  | .null, .bool _ | .null, .num _ | .null, .str _ | .null, .arr _ | .null, .map _
  | .bool _, .null | .bool _, .num _ | .bool _, .str _ | .bool _, .arr _ | .bool _, .map _
  | .num _, .null | .num _, .bool _ | .num _, .str _ | .num _, .arr _ | .num _, .map _
  | .str _, .null | .str _, .bool _ | .str _, .num _ | .str _, .arr _ | .str _, .map _
  | .arr _, .null | .arr _, .bool _ | .arr _, .num _ | .arr _, .str _ | .arr _, .map _
  | .map _, .null | .map _, .bool _ | .map _, .num _ | .map _, .str _ | .map _, .arr _ => by
      simp [dynBeq]

theorem dynListBeq_iff : ∀ as bs : List Dyn, dynListBeq as bs = true ↔ as = bs
  | [], [] => by simp [dynListBeq]
  | a :: as, b :: bs => by
      simp [dynListBeq, dynBeq_iff a b, dynListBeq_iff as bs]
  | [], _ :: _ => by simp [dynListBeq]
  | _ :: _, [] => by simp [dynListBeq]

theorem dynPairsBeq_iff : ∀ as bs : List (String × Dyn), dynPairsBeq as bs = true ↔ as = bs
  | [], [] => by simp [dynPairsBeq]
  | (k1, v1) :: as, (k2, v2) :: bs => by
      simp [dynPairsBeq, dynBeq_iff v1 v2, dynPairsBeq_iff as bs, Prod.ext_iff, and_assoc]
  | [], _ :: _ => by simp [dynPairsBeq]
  | _ :: _, [] => by simp [dynPairsBeq]

end

instance : DecidableEq Dyn := fun a b => decidable_of_iff (dynBeq a b = true) (dynBeq_iff a b)

mutual

/-- Rendering of a dynamic value, used as the content of the diff
produced on a mismatch. -/
def Dyn.render : Dyn → String
  | .null => "null"
  | .bool true => "true"
  | .bool false => "false"
  | .num n => toString n
  | .str s => goQuote s
  | .arr xs => "[" ++ Dyn.renderSeq xs ++ "]"
  | .map kvs => "\x7b" ++ Dyn.renderPairs kvs ++ "\x7d"

/-- Rendering of a sequence of dynamic values. -/
def Dyn.renderSeq : List Dyn → String
  | [] => ""
  | [x] => Dyn.render x
  | x :: xs => Dyn.render x ++ "," ++ Dyn.renderSeq xs

/-- Rendering of the entries of a map of dynamic values. -/
def Dyn.renderPairs : List (String × Dyn) → String
  | [] => ""
  | [(k, v)] => goQuote k ++ ":" ++ Dyn.render v
  | (k, v) :: kvs => goQuote k ++ ":" ++ Dyn.render v ++ "," ++ Dyn.renderPairs kvs

end

/-- Structural diff of two dynamic values, modelling the contract of
the external go-cmp library's cmp.Diff: the empty string exactly when
the two values are deeply equal, otherwise a non-empty human-readable
diff. -/
def cmpDiff (got want : Dyn) : String :=
  if got = want then "" else "- " ++ Dyn.render got ++ "\n+ " ++ Dyn.render want

/-- Runtime value handed to the checker as its actual (got) argument;
Go's interface-typed parameter can hold a string, a byte slice or a
value of any other runtime type. -/
inductive GoVal where
  | str (s : String)
  | bytes (b : List Nat)
  | other (typeName : String)
  deriving DecidableEq

/-- Name of the runtime type of a value, as printed by Go's %T verb. -/
def goTypeName : GoVal → String
  | .str _ => "string"
  | .bytes _ => "[]uint8"
  | .other t => t

/-- Outcome of a checker's Check method: success, a usage (bad-check)
error produced via qt.BadCheckf, or an ordinary error produced via
fmt.Errorf or errors.New. -/
inductive CheckResult where
  | ok
  | badCheck (msg : String)
  | err (msg : String)
  deriving DecidableEq

/-- Test for the usage-error class of check outcomes. -/
def CheckResult.isBadCheck : CheckResult → Bool
  | .badCheck _ => true
  | _ => false

/-- Result of a Check call together with the entries reported through
the note callback, in order. -/
structure CheckOutput where
  result : CheckResult
  notes : List (String × String)
  deriving DecidableEq

/-- Checker comparing a byte slice against a value after a codec round
trip, embedded from the Go struct codecEqualChecker: a name and a
(marshal, unmarshal) function pair.  Unmarshalling into an
interface-typed destination is modelled by returning a Dyn. -/
structure codecEqualChecker where
  name : String := ""
  marshal : Dyn → Except String String
  unmarshal : String → Except String Dyn

/-- Argument names of the checker, embedded from
codecEqualChecker.ArgNames. -/
def codecEqualChecker.ArgNames (_ : codecEqualChecker) : List String :=
  ["got", "want"]

/-- Embedding of codecEqualChecker.Check from src/codec.go: assert the
got value is a string, marshal the expected contents, unmarshal them
back, unmarshal the got contents, and deep-compare the two dynamic
values, reporting a diff through the note callback on mismatch. -/
def codecEqualChecker.Check (checker : codecEqualChecker) (got : GoVal)
    (expectContent : Dyn) : CheckOutput :=
  match got with
  | .str gotContent =>
    match checker.marshal expectContent with
    | .error e => ⟨.badCheck ("cannot marshal expected contents: " ++ e), []⟩
    | .ok expectContentBytes =>
      match checker.unmarshal expectContentBytes with
      | .error e => ⟨.err ("cannot unmarshal expected contents: " ++ e), []⟩
      | .ok expectContentVal =>
        match checker.unmarshal gotContent with
        | .error e =>
            ⟨.err ("cannot unmarshal obtained contents: " ++ e ++ "; " ++ goQuote gotContent), []⟩
        | .ok gotContentVal =>
          let diff := cmpDiff gotContentVal expectContentVal
          if diff = "" then ⟨.ok, []⟩
          else ⟨.err "values are not equal", [("diff (-got +want)", diff)]⟩
  | g => ⟨.badCheck ("expected string, got " ++ goTypeName g), []⟩

/-- Miniature concrete codec standing in for an external marshal
function in witnesses: it encodes the scalar constants the way JSON
does and rejects everything else. -/
def miniMarshal : Dyn → Except String String
  | .null => .ok "null"
  | .bool true => .ok "true"
  | .bool false => .ok "false"
  | _ => .error "unsupported value"

/-- Miniature concrete decoder matching miniMarshal. -/
def miniUnmarshal : String → Except String Dyn
  | "null" => .ok .null
  | "true" => .ok (.bool true)
  | "false" => .ok (.bool false)
  | _ => .error "unexpected content"

/-- Concrete checker instance built on the miniature codec. -/
def miniChecker : codecEqualChecker :=
  { marshal := miniMarshal, unmarshal := miniUnmarshal }

/-- Concrete checker whose decoder always fails, exercising the
expected-side decode failure path. -/
def badDecodeChecker : codecEqualChecker :=
  { marshal := miniMarshal, unmarshal := fun _ => .error "boom" }

/-- Modelled from the spec: an HTTP request as built by DoRequest of
the missing http.go — method, target URL, header set and the content
length inferred from the body (none means chunked transfer). -/
structure Request where
  method : String := ""
  url : String := ""
  header : List (String × List String) := []
  contentLength : Option Nat := none
  deriving DecidableEq

/-- Modelled from the spec: an HTTP response — status code, header
set, raw body, and the originating request attached to it. -/
structure Response where
  status : Nat
  header : List (String × List String)
  body : String
  request : Request
  deriving DecidableEq

/-- Modelled from the spec: the body reader kinds DoRequest of the
missing http.go distinguishes — string-backed readers, fixed
in-memory buffers and byte-slice-backed readers expose a known
length, other readers do not. -/
inductive BodyReader where
  | stringsReader (s : String)
  | bytesBuffer (s : String)
  | bytesReader (s : String)
  | unknownLen (s : String)
  deriving DecidableEq

/-- Content carried by a body reader. -/
def BodyReader.contents : BodyReader → String
  | .stringsReader s => s
  | .bytesBuffer s => s
  | .bytesReader s => s
  | .unknownLen s => s

/-- Modelled from the spec: the length a reader exposes, in bytes;
none when the reader kind carries no length information. -/
def BodyReader.knownLength : BodyReader → Option Nat
  | .stringsReader s => some s.utf8ByteSize
  | .bytesBuffer s => some s.utf8ByteSize
  | .bytesReader s => some s.utf8ByteSize
  | .unknownLen _ => none

/-- Modelled from the spec: the parameter set of AssertJSONCall of the
missing http.go (type JSONCallParams).  The empty string plays the
role of Go's zero value for the method and the expected-error
pattern, and zero that of the expected status. -/
structure JSONCallParams where
  method : String := ""
  url : String := ""
  body : Option BodyReader := none
  header : List (String × List String) := []
  expectStatus : Nat := 0
  expectHeader : List (String × List String) := []
  expectBody : Option Dyn := none
  expectError : String := ""

/-- Modelled from the spec: request construction by DoRequest — an
empty method defaults to GET, and the content length is inferred from
the body reader when its kind exposes one. -/
def buildRequest (p : JSONCallParams) : Request :=
  { method := if p.method = "" then "GET" else p.method
    url := p.url
    header := p.header
    contentLength :=
      match p.body with
      | none => some 0
      | some b => b.knownLength }

/-- Modelled from the spec: the values a response's header set holds
under a name, looked up case-insensitively; a missing header yields
the empty value list. -/
def headerGet (h : List (String × List String)) (name : String) : List String :=
  match h.find? (fun kv => lowerStr kv.1 == lowerStr name) with
  | some kv => kv.2
  | none => []

/-- Modelled from the spec: value-set comparison for one expected
header — order-insensitive but count-sensitive, that is multiset
equality of the two value lists. -/
def valuesMatch (got want : List String) : Bool :=
  decide (List.Perm got want)

/-- Modelled from the spec: the header expectation check — every
header named in the expectation must carry exactly the expected value
set in the response, response headers not named are ignored. -/
def checkHeaders (expect respHeader : List (String × List String)) : Bool :=
  expect.all (fun kv => valuesMatch (headerGet respHeader kv.1) kv.2)

/-- Modelled from the spec: the expected status that is actually
checked — an unset (zero) expectation defaults to 200. -/
def effectiveExpectStatus (p : JSONCallParams) : Nat :=
  if p.expectStatus = 0 then 200 else p.expectStatus

/-- Modelled from the spec: the status assertion of AssertJSONCall. -/
def statusCheck (p : JSONCallParams) (resp : Response) : Bool :=
  resp.status == effectiveExpectStatus p

/-- Verdict of one assertion call. -/
inductive AssertOutcome where
  | pass
  | fail (msg : String)
  deriving DecidableEq

/-- Modelled from the spec: the response checks of AssertJSONCall in
order — status, expected header subset, then the body compared
through the codec equality checker. -/
def checkResponse (codec : codecEqualChecker) (p : JSONCallParams)
    (resp : Response) : AssertOutcome :=
  if statusCheck p resp = false then
    .fail ("unexpected status code " ++ toString resp.status ++ "; body: " ++ resp.body)
  else if checkHeaders p.expectHeader resp.header = false then
    .fail "header mismatch"
  else
    match p.expectBody with
    | none => .pass
    | some want =>
      match (codec.Check (.str resp.body) want).result with
      | .ok => .pass
      | _ => .fail "body mismatch"

/-- Fuel-driven matcher for the regular-expression fragment the
harness exercises (literal characters, the dot wildcard and the star
repetition), anchored at both ends, as qt.ErrorMatches matches a
pattern against the full error message.  The fuel argument only
bounds the recursion; reMatchStr below supplies enough of it. -/
def reMatchAux : Nat → List Char → List Char → Bool
  | 0, _, _ => false
  | _ + 1, [], s => s.isEmpty
  | f + 1, p :: '*' :: ps, s =>
      reMatchAux f ps s ||
        (match s with
         | [] => false
         | c :: cs => (p = '.' || p = c) && reMatchAux f (p :: '*' :: ps) cs)
  | _ + 1, _ :: _, [] => false
  | f + 1, p :: ps, c :: cs => (p = '.' || p = c) && reMatchAux f ps cs

/-- Anchored regular-expression match of a pattern against a whole
string. -/
def reMatchStr (pat s : String) : Bool :=
  reMatchAux (pat.length + s.length + 1) pat.data s.data

/-- Modelled from the spec: AssertJSONCall — run the request, and
either verify an expected transport-level error against the
configured pattern, or check the response.  The execution itself is
an external collaborator and enters as the result parameter. -/
def AssertJSONCall (codec : codecEqualChecker) (p : JSONCallParams)
    (result : Except String Response) : AssertOutcome :=
  if p.expectError ≠ "" then
    match result with
    | .error e =>
        if reMatchStr p.expectError e then .pass
        else .fail ("error does not match expected pattern: " ++ e)
    | .ok _ => .fail "expected an error, but the request returned a response"
  else
    match result with
    | .error e => .fail ("unexpected error: " ++ e)
    | .ok resp => checkResponse codec p resp

/-- Modelled from the spec: the URL-rewriting transport's rewriting
rule — a textual prefix to match and its replacement. -/
structure URLRewritingTransport where
  matchPrefix : String
  replace : String

/-- Textual prefix test on strings, as Go's strings.HasPrefix. -/
def strHasPre (pre s : String) : Bool :=
  pre.data.isPrefixOf s.data

/-- Drops the first n characters of a string. -/
def strDropChars (s : String) (n : Nat) : String :=
  String.mk (s.data.drop n)

/-- Modelled from the spec: the rewritten URL — the matched prefix
replaced by the configured replacement. -/
def rewriteURL (t : URLRewritingTransport) (url : String) : String :=
  t.replace ++ strDropChars url t.matchPrefix.length

/-- Modelled from the spec: URLRewritingTransport.RoundTrip — rewrite
a matching URL prefix, delegate to the underlying transport, and on
success restore the original URL on the request attached to the
response; errors propagate unchanged and non-matching requests pass
through unmodified. -/
def URLRewritingTransport.RoundTrip (t : URLRewritingTransport)
    (underlying : Request → Except String Response) (req : Request) :
    Except String Response :=
  if strHasPre t.matchPrefix req.url then
    match underlying { req with url := rewriteURL t req.url } with
    | .error e => .error e
    | .ok resp => .ok { resp with request := { resp.request with url := req.url } }
  else
    underlying req

/-- Substring containment: sub occurs contiguously inside s. -/
def containsSub (s sub : String) : Prop :=
  ∃ pre post, s = pre ++ (sub ++ post)

theorem append_longer_ne (a x b : String) (h : b.length < a.length) : a ++ x ≠ b := by
  intro he
  have hl := congrArg String.length he
  rw [String.length_append] at hl
  omega

theorem append_not_pre_ne (a b x y : String)
    (h1 : a.data.isPrefixOf b.data = false)
    (h2 : b.data.isPrefixOf a.data = false) : a ++ x ≠ b ++ y := by
  intro he
  have hd : a.data ++ x.data = b.data ++ y.data := by
    have hdata := congrArg String.data he
    simpa [String.data_append] using hdata
  have hpa : a.data <+: b.data ++ y.data := ⟨x.data, hd⟩
  have hpb : b.data <+: b.data ++ y.data := List.prefix_append b.data y.data
  rcases List.prefix_or_prefix_of_prefix hpa hpb with h | h
  · rw [List.isPrefixOf_iff_prefix.mpr h] at h1
    cases h1
  · rw [List.isPrefixOf_iff_prefix.mpr h] at h2
    cases h2

theorem goEscape_plain_list :
    ∀ l : List Char, (∀ c ∈ l, plainChar c = true) →
      List.foldr (fun c acc => goEscapeChar c ++ acc) "" l = String.mk l := by
  intro l
  induction l with
  | nil => intro _; rfl
  | cons c cs ih =>
      intro h
      have hc : plainChar c = true := h c (by simp)
      have hcs := ih (fun x hx => h x (by simp [hx]))
      simp only [List.foldr]
      rw [hcs]
      simp only [goEscapeChar, hc, if_true]
      rfl

theorem goEscape_plain (s : String) (h : ∀ c ∈ s.data, plainChar c = true) :
    goEscape s = s := by
  unfold goEscape
  rw [goEscape_plain_list s.data h]

/-- C1: for every value the configured codec can marshal and
unmarshal, Check applied to the string of the marshalled value as got
and the value itself as expected passes: it returns nil and reports
nothing through the note callback. -/
theorem check_roundtrip_passes (checker : codecEqualChecker) (v w : Dyn) (b : String)
    (h1 : checker.marshal v = .ok b) (h2 : checker.unmarshal b = .ok w) :
    checker.Check (.str b) v = ⟨.ok, []⟩ := by
  simp [codecEqualChecker.Check, h1, h2, cmpDiff]

/-- Witness for check_roundtrip_passes on the miniature codec. -/
theorem check_roundtrip_passes_witness :
    miniChecker.Check (.str "true") (.bool true) = ⟨.ok, []⟩ :=
  check_roundtrip_passes miniChecker (.bool true) (.bool true) "true" rfl rfl

/-- C2: for every pair of encodable values whose canonical dynamic
representations after the round trip differ, Check with the string of
the first value's encoding as got and the second value as expected
returns the error "values are not equal" and reports a non-empty
structural diff through the note callback. -/
theorem check_mismatch_fails (checker : codecEqualChecker) (v1 v2 w1 w2 : Dyn)
    (b1 b2 : String)
    (h1 : checker.marshal v1 = .ok b1) (h2 : checker.marshal v2 = .ok b2)
    (h3 : checker.unmarshal b1 = .ok w1) (h4 : checker.unmarshal b2 = .ok w2)
    (hne : w1 ≠ w2) :
    checker.Check (.str b1) v2 =
      ⟨.err "values are not equal", [("diff (-got +want)", cmpDiff w1 w2)]⟩ ∧
    cmpDiff w1 w2 ≠ "" := by
  have hdne : cmpDiff w1 w2 ≠ "" := by
    simp only [cmpDiff, if_neg hne]
    intro hc
    exact append_longer_ne "- " (Dyn.render w1 ++ ("\n+ " ++ Dyn.render w2)) "" (by decide)
      (by simpa [String.append_assoc] using hc)
  refine ⟨?_, hdne⟩
  simp [codecEqualChecker.Check, h2, h3, h4, hdne]

/-- Witness for check_mismatch_fails on the miniature codec. -/
theorem check_mismatch_fails_witness :
    miniChecker.Check (.str "true") (.bool false) =
      ⟨.err "values are not equal", [("diff (-got +want)", cmpDiff (.bool true) (.bool false))]⟩ :=
  (check_mismatch_fails miniChecker (.bool true) (.bool false) (.bool true) (.bool false)
    "true" "false" rfl rfl rfl rfl (by intro h; cases h)).1

/-- C9: when decoding the got content fails, the returned error
carries the offending raw content in its message (quoted by %q, hence
verbatim whenever the content needs no escaping), and that message is
distinct in wording both from the value-mismatch failure and from
every expected-side decode failure. -/
theorem check_obtained_decode_error (checker : codecEqualChecker) (v w : Dyn)
    (b g e : String)
    (h1 : checker.marshal v = .ok b) (h2 : checker.unmarshal b = .ok w)
    (h3 : checker.unmarshal g = .error e) :
    checker.Check (.str g) v =
      ⟨.err ("cannot unmarshal obtained contents: " ++ e ++ "; " ++ goQuote g), []⟩ ∧
    containsSub ("cannot unmarshal obtained contents: " ++ e ++ "; " ++ goQuote g)
      (goQuote g) ∧
    ((∀ c ∈ g.data, plainChar c = true) →
      containsSub ("cannot unmarshal obtained contents: " ++ e ++ "; " ++ goQuote g) g) ∧
    ("cannot unmarshal obtained contents: " ++ e ++ "; " ++ goQuote g) ≠
      "values are not equal" ∧
    (∀ e2, ("cannot unmarshal obtained contents: " ++ e ++ "; " ++ goQuote g) ≠
      "cannot unmarshal expected contents: " ++ e2) := by
  refine ⟨?_, ?_, ?_, ?_, ?_⟩
  · simp [codecEqualChecker.Check, h1, h2, h3]
  · refine ⟨"cannot unmarshal obtained contents: " ++ e ++ "; ", "", ?_⟩
    simp [String.append_assoc]
  · intro hp
    refine ⟨"cannot unmarshal obtained contents: " ++ e ++ "; \"", "\"", ?_⟩
    have hmerge : ∀ X : String, ("; " : String) ++ ("\"" ++ X) = "; \"" ++ X := by
      intro X
      rw [← String.append_assoc]
      rw [(by decide : (("; " : String) ++ "\"") = "; \"")]
    simp [goQuote, goEscape_plain g hp, String.append_assoc, hmerge]
  · intro he
    apply append_longer_ne "cannot unmarshal obtained contents: "
      (e ++ ("; " ++ goQuote g)) "values are not equal" (by decide)
    simpa [String.append_assoc] using he
  · intro e2 he
    apply append_not_pre_ne "cannot unmarshal obtained contents: "
      "cannot unmarshal expected contents: " (e ++ ("; " ++ goQuote g)) e2
      (by decide) (by decide)
    simpa [String.append_assoc] using he

/-- Witness for check_obtained_decode_error on the miniature codec. -/
theorem check_obtained_decode_error_witness :
    miniChecker.Check (.str "oops") .null =
      ⟨.err ("cannot unmarshal obtained contents: " ++ "unexpected content" ++ "; " ++
        goQuote "oops"), []⟩ :=
  (check_obtained_decode_error miniChecker .null .null "null" "oops" "unexpected content"
    rfl rfl rfl).1

/-- C10: when unmarshalling the re-encoded expected bytes fails, Check
returns the ordinary error "cannot unmarshal expected contents", not a
usage error; the outcome does not depend on how the codec would decode
the got content (it is never decoded), while a marshal failure of the
expected value does produce a usage error. -/
theorem check_expected_decode_error (checker : codecEqualChecker) (v : Dyn)
    (b e g : String)
    (h1 : checker.marshal v = .ok b) (h2 : checker.unmarshal b = .error e) :
    checker.Check (.str g) v =
      ⟨.err ("cannot unmarshal expected contents: " ++ e), []⟩ ∧
    (checker.Check (.str g) v).result.isBadCheck = false ∧
    (∀ checker2 : codecEqualChecker, checker2.marshal v = .ok b →
      checker2.unmarshal b = .error e →
      checker2.Check (.str g) v = checker.Check (.str g) v) ∧
    (∀ v2 em got2, checker.marshal v2 = .error em →
      (checker.Check got2 v2).result.isBadCheck = true) := by
  have hmain : checker.Check (.str g) v =
      ⟨.err ("cannot unmarshal expected contents: " ++ e), []⟩ := by
    simp [codecEqualChecker.Check, h1, h2]
  refine ⟨hmain, by rw [hmain]; rfl, ?_, ?_⟩
  · intro checker2 g1 g2
    rw [hmain]
    simp [codecEqualChecker.Check, g1, g2]
  · intro v2 em got2 hm
    cases got2 with
    | str s => simp [codecEqualChecker.Check, hm, CheckResult.isBadCheck]
    | bytes bb => simp [codecEqualChecker.Check, CheckResult.isBadCheck]
    | other t => simp [codecEqualChecker.Check, CheckResult.isBadCheck]

/-- Witness for check_expected_decode_error on the always-failing
decoder. -/
theorem check_expected_decode_error_witness :
    badDecodeChecker.Check (.str "true") .null =
      ⟨.err ("cannot unmarshal expected contents: " ++ "boom"), []⟩ :=
  (check_expected_decode_error badDecodeChecker .null "null" "boom" "true" rfl rfl).1

/-- C3 counterexample: the claim admits byte sequences as the got
value, but Check type-asserts to string only, so a byte-slice got is
answered with the usage (bad-check) error "expected string, got
[]uint8" instead of being accepted as encoded content. -/
theorem bytes_got_usage_error_counterexample :
    (miniChecker.Check (.bytes [116, 114, 117, 101]) (.bool true)).result =
      .badCheck "expected string, got []uint8" ∧
    (miniChecker.Check (.bytes [116, 114, 117, 101]) (.bool true)).result.isBadCheck =
      true := by
  constructor
  · rfl
  · rfl

/-- C3 amended: only a string got is accepted (Check never answers a
string with the expected-string type usage error); a got value of any
other runtime type, byte slices included, is answered with exactly
that usage error, never an assertion failure. -/
theorem nonstring_got_usage_error (checker : codecEqualChecker) (want : Dyn) :
    (∀ s t : String,
      (checker.Check (.str s) want).result ≠ .badCheck ("expected string, got " ++ t)) ∧
    (∀ g : GoVal, (∀ s, g ≠ .str s) →
      (checker.Check g want).result = .badCheck ("expected string, got " ++ goTypeName g) ∧
      (checker.Check g want).result.isBadCheck = true) := by
  constructor
  · intro s t
    rcases hm : checker.marshal want with em | bb
    · have hres : (checker.Check (.str s) want).result =
          .badCheck ("cannot marshal expected contents: " ++ em) := by
        simp [codecEqualChecker.Check, hm]
      rw [hres]
      intro hEq
      have hmsg : "cannot marshal expected contents: " ++ em =
          "expected string, got " ++ t := by
        injection hEq
      exact append_not_pre_ne _ _ _ _ (by decide) (by decide) hmsg
    · rcases hu : checker.unmarshal bb with e2 | w
      · have hres : (checker.Check (.str s) want).result =
            .err ("cannot unmarshal expected contents: " ++ e2) := by
          simp [codecEqualChecker.Check, hm, hu]
        rw [hres]
        simp
      · rcases hg : checker.unmarshal s with e3 | wg
        · have hres : (checker.Check (.str s) want).result =
              .err ("cannot unmarshal obtained contents: " ++ e3 ++ "; " ++ goQuote s) := by
            simp [codecEqualChecker.Check, hm, hu, hg]
          rw [hres]
          simp
        · by_cases heq : wg = w
          · have hres : (checker.Check (.str s) want).result = .ok := by
              simp [codecEqualChecker.Check, hm, hu, hg, cmpDiff, heq]
            rw [hres]
            simp
          · have hdne : cmpDiff wg w ≠ "" := by
              simp only [cmpDiff, if_neg heq]
              intro hc
              exact append_longer_ne "- " (Dyn.render wg ++ ("\n+ " ++ Dyn.render w)) ""
                (by decide) (by simpa [String.append_assoc] using hc)
            have hres : (checker.Check (.str s) want).result =
                .err "values are not equal" := by
              simp [codecEqualChecker.Check, hm, hu, hg, hdne]
            rw [hres]
            simp
  · intro g hg
    cases g with
    | str s => exact absurd rfl (hg s)
    | bytes bb =>
        exact ⟨by simp [codecEqualChecker.Check, goTypeName], by
          simp [codecEqualChecker.Check, CheckResult.isBadCheck]⟩
    | other t =>
        exact ⟨by simp [codecEqualChecker.Check, goTypeName], by
          simp [codecEqualChecker.Check, CheckResult.isBadCheck]⟩

/-- Witness for nonstring_got_usage_error at a bool-typed got value,
matching the repository's own test of that case. -/
theorem nonstring_got_usage_error_witness :
    (miniChecker.Check (.other "bool") .null).result =
      .badCheck ("expected string, got " ++ goTypeName (.other "bool")) ∧
    (miniChecker.Check (.other "bool") .null).result.isBadCheck = true :=
  (nonstring_got_usage_error miniChecker .null).2 (.other "bool")
    (fun s h => GoVal.noConfusion h)

theorem headerGet_skip (k : String) (vs : List String)
    (respH : List (String × List String)) (n : String)
    (h : lowerStr n ≠ lowerStr k) :
    headerGet ((k, vs) :: respH) n = headerGet respH n := by
  have hfalse : (lowerStr k == lowerStr n) = false :=
    beq_eq_false_iff_ne.mpr (Ne.symm h)
  unfold headerGet
  rw [List.find?_cons_of_neg]
  simpa using hfalse

/-- C4: with an expected-error pattern configured, AssertJSONCall
passes whenever execution returns an error matching the pattern,
without performing any status, header or body check (the expectation
fields are arbitrary), and fails whenever execution returns a normal
response instead. -/
theorem expect_error_branch (codec : codecEqualChecker) (p : JSONCallParams)
    (hcfg : p.expectError ≠ "") :
    (∀ e, reMatchStr p.expectError e = true →
      AssertJSONCall codec p (.error e) = .pass) ∧
    (∀ resp, AssertJSONCall codec p (.ok resp) =
      .fail "expected an error, but the request returned a response") := by
  constructor
  · intro e hm
    simp [AssertJSONCall, hcfg, hm]
  · intro resp
    simp [AssertJSONCall, hcfg]

/-- Witness for expect_error_branch, mirroring the repository's
expect-error-regexp test case. -/
theorem expect_error_branch_witness :
    AssertJSONCall miniChecker
      { url := "/", expectStatus := 418, expectError := "some .* error" }
      (.error "some bad error") = .pass :=
  (expect_error_branch miniChecker
    { url := "/", expectStatus := 418, expectError := "some .* error" }
    (by decide)).1 "some bad error" (by decide)

/-- C5: a request whose URL starts with the configured match prefix is
delegated with the prefix replaced by the configured replacement and,
on success, the request URL attached to the response is restored to
the original URL; errors from the underlying transport propagate
unchanged; a request whose URL does not start with the prefix passes
through unmodified. -/
theorem transport_rewrite_restore (t : URLRewritingTransport)
    (underlying : Request → Except String Response) (req : Request) :
    (∀ tail : String, req.url = t.matchPrefix ++ tail →
      strHasPre t.matchPrefix req.url = true ∧
      rewriteURL t req.url = t.replace ++ tail ∧
      (∀ resp, underlying { req with url := t.replace ++ tail } = .ok resp →
        t.RoundTrip underlying req =
          .ok { resp with request := { resp.request with url := req.url } }) ∧
      (∀ e, underlying { req with url := t.replace ++ tail } = .error e →
        t.RoundTrip underlying req = .error e)) ∧
    (strHasPre t.matchPrefix req.url = false →
      t.RoundTrip underlying req = underlying req) := by
  constructor
  · intro tail hurl
    have hpre : strHasPre t.matchPrefix req.url = true := by
      rw [hurl]
      unfold strHasPre
      rw [String.data_append]
      exact List.isPrefixOf_iff_prefix.mpr (List.prefix_append _ _)
    have hrw : rewriteURL t req.url = t.replace ++ tail := by
      rw [hurl]
      unfold rewriteURL strDropChars
      congr 1
      rw [String.data_append]
      show String.mk (List.drop t.matchPrefix.data.length
        (t.matchPrefix.data ++ tail.data)) = tail
      rw [List.drop_left]
    refine ⟨hpre, hrw, ?_, ?_⟩
    · intro resp hu
      simp [URLRewritingTransport.RoundTrip, hpre, hrw, hu]
    · intro e hu
      simp [URLRewritingTransport.RoundTrip, hpre, hrw, hu]
  · intro hnp
    simp [URLRewritingTransport.RoundTrip, hnp]

/-- Witness for transport_rewrite_restore, mirroring the repository's
TestTransport scenario: the rewritten request reaches the underlying
transport while the response's request URL reads the original. -/
theorem transport_rewrite_restore_witness :
    URLRewritingTransport.RoundTrip
      { matchPrefix := "http://example.com", replace := "http://server.local" }
      (fun r => .ok { status := 200, header := [], body := r.url, request := r })
      { method := "GET", url := "http://example.com/path" } =
    .ok { status := 200, header := [],
          body := "http://server.local" ++ "/path",
          request := { method := "GET", url := "http://example.com/path" } } :=
  ((transport_rewrite_restore
      { matchPrefix := "http://example.com", replace := "http://server.local" }
      (fun r => .ok { status := 200, header := [], body := r.url, request := r })
      { method := "GET", url := "http://example.com/path" }).1
    "/path" (by decide)).2.2.1
    { status := 200, header := [], body := "http://server.local" ++ "/path",
      request := { method := "GET", url := "http://server.local" ++ "/path" } }
    rfl

/-- C6: header expectation matching is case-insensitive on the header
name, order-insensitive but count-sensitive on the value set, ignores
response headers not named in the expectation, and a failing header
check makes the response check of the call fail. -/
theorem header_matching_properties :
    (∀ (respH : List (String × List String)) (n n2 : String),
      lowerStr n = lowerStr n2 → headerGet respH n = headerGet respH n2) ∧
    (∀ (respH rest : List (String × List String)) (n : String) (v : List String),
      checkHeaders ((n, v) :: rest) respH =
        (valuesMatch (headerGet respH n) v && checkHeaders rest respH)) ∧
    (∀ got v v2 : List String, List.Perm v v2 →
      valuesMatch got v = valuesMatch got v2) ∧
    (∀ got v : List String, ¬ List.Perm got v → valuesMatch got v = false) ∧
    (∀ (expect respH : List (String × List String)) (k : String) (vs : List String),
      (∀ kv ∈ expect, lowerStr kv.1 ≠ lowerStr k) →
      checkHeaders expect ((k, vs) :: respH) = checkHeaders expect respH) ∧
    (∀ (codec : codecEqualChecker) (p : JSONCallParams) (resp : Response),
      statusCheck p resp = true → checkHeaders p.expectHeader resp.header = false →
      checkResponse codec p resp = .fail "header mismatch") := by
  refine ⟨?_, ?_, ?_, ?_, ?_, ?_⟩
  · intro respH n n2 h
    simp [headerGet, h]
  · intro respH rest n v
    simp [checkHeaders]
  · intro got v v2 hp
    exact decide_eq_decide.mpr ⟨fun h => h.trans hp, fun h => h.trans hp.symm⟩
  · intro got v h
    exact decide_eq_false h
  · intro expect respH k vs hall
    induction expect with
    | nil => rfl
    | cons kv rest ih =>
        have hkv := hall kv (by simp)
        have hrest := ih (fun x hx => hall x (by simp [hx]))
        simp only [checkHeaders, List.all_cons] at hrest ⊢
        rw [headerGet_skip k vs respH kv.1 hkv, hrest]
  · intro codec p resp h1 h2
    simp [checkResponse, h1, h2]

/-- Witness for header_matching_properties, mirroring the
repository's case-insensitive ExpectHeader test: the lookup ignores
name case, value-set order does not matter while counts do, and an
extra response header not named in the expectation is ignored. -/
theorem header_matching_properties_witness :
    headerGet [("Custom", ["value1", "value2"])] "CUSTOM" =
      headerGet [("Custom", ["value1", "value2"])] "custom" ∧
    valuesMatch ["value1", "value2"] ["value2", "value1"] =
      valuesMatch ["value1", "value2"] ["value1", "value2"] ∧
    valuesMatch ["value1"] ["value1", "value1"] = false ∧
    checkHeaders [("Custom", ["value1", "value2"])]
        [("Ignored", ["value3", "value3"]), ("Custom", ["value1", "value2"])] =
      checkHeaders [("Custom", ["value1", "value2"])]
        [("Custom", ["value1", "value2"])] :=
  ⟨header_matching_properties.1 _ "CUSTOM" "custom" (by decide),
   header_matching_properties.2.2.1 _ _ _ (by decide),
   header_matching_properties.2.2.2.1 _ _ (by decide),
   header_matching_properties.2.2.2.2.1 _ _ "Ignored" ["value3", "value3"] (by decide)⟩

/-- C7: a call whose parameters leave the method empty issues the
request with method GET, and a call whose parameters leave the
expected status unset checks the response status against 200. -/
theorem default_method_and_status (p : JSONCallParams) (resp : Response) :
    (p.method = "" → (buildRequest p).method = "GET") ∧
    (p.method ≠ "" → (buildRequest p).method = p.method) ∧
    (p.expectStatus = 0 → effectiveExpectStatus p = 200 ∧
      statusCheck p resp = (resp.status == 200)) ∧
    (p.expectStatus ≠ 0 → statusCheck p resp = (resp.status == p.expectStatus)) := by
  refine ⟨?_, ?_, ?_, ?_⟩ <;>
    intro h <;>
    simp [buildRequest, statusCheck, effectiveExpectStatus, h]

/-- Witness for default_method_and_status at an all-default parameter
set. -/
theorem default_method_and_status_witness :
    (buildRequest { url := "/" }).method = "GET" ∧
    statusCheck { url := "/" }
      { status := 200, header := [], body := "", request := {} } = (200 == 200) :=
  ⟨(default_method_and_status { url := "/" }
      { status := 200, header := [], body := "", request := {} }).1 rfl,
   ((default_method_and_status { url := "/" }
      { status := 200, header := [], body := "", request := {} }).2.2.1 rfl).2⟩

/-- C8: for the three known-length reader kinds — string-backed
readers, fixed in-memory buffers and byte-slice-backed readers — the
built request carries a content length equal to the byte size of the
reader's contents. -/
theorem inferrable_content_length (p : JSONCallParams) (s : String) :
    (buildRequest { p with body := some (.stringsReader s) }).contentLength =
      some ((BodyReader.stringsReader s).contents.utf8ByteSize) ∧
    (buildRequest { p with body := some (.bytesBuffer s) }).contentLength =
      some ((BodyReader.bytesBuffer s).contents.utf8ByteSize) ∧
    (buildRequest { p with body := some (.bytesReader s) }).contentLength =
      some ((BodyReader.bytesReader s).contents.utf8ByteSize) ∧
    (buildRequest { p with body := some (.unknownLen s) }).contentLength = none :=
  ⟨rfl, rfl, rfl, rfl⟩
